import Mathlib

/-!
Shallow embedding of the ledger-store core of the layer2 repository
(package ledgerstore, file under src/node/core/utils): header and
layer2-state verification, block execution, the three-store submit
protocol, crash recovery and initialization.  Hashes, addresses and
public keys are abstracted to natural numbers; the cryptographic
primitives (sha256, multisignature verification, address derivation)
are external collaborators and appear as explicit environment
functions.  Fallible Go calls are embedded as Except / Option values,
and nondeterministic failure of external stores is made explicit with
boolean fault flags.
-/

namespace Layer2

/-- Hash values (common.Uint256 in the source) abstracted to Nat;
UINT256_EMPTY is 0. -/
abbrev Hash := Nat

/-- Addresses (common.Address) abstracted to Nat. -/
abbrev Addr := Nat

/-- Public keys (keypair.PublicKey) abstracted to Nat. -/
abbrev PubKey := Nat

/-- The zero hash common.UINT256_EMPTY. -/
def UINT256_EMPTY : Hash := 0

/-- Transaction type tag: the Go switch in handleTransaction has cases
Deploy and InvokeNeo; every other type falls through. -/
inductive TxType where
  | deploy
  | invokeNeo
  | other
deriving Repr, DecidableEq

/-- A transaction as seen by handleTransaction.  `hashVal` models
tx.Hash().  `engineErr` records whether the external execution engine
(stateStore.HandleDeployTransaction / HandleInvokeTransaction) returns a
non-nil err for this transaction, and `overlayErr` whether
overlay.Error() is non-nil after handling it; both are behaviours of
external collaborators, so they enter the model as data. -/
structure Tx where
  txType : TxType
  hashVal : Hash
  overlayErr : Bool
  engineErr : Bool
deriving Repr, DecidableEq

/-- Block header (types.Header): the fields read by the ledger store. -/
structure Header where
  height : Nat
  prevBlockHash : Hash
  timestamp : Nat
  bookkeepers : List PubKey
  nextBookkeeper : Addr
  blockRoot : Hash
  transactionsRoot : Hash
  sigData : List Nat
deriving Repr, DecidableEq

/-- A block: header plus ordered transactions; `hashVal` models
block.Hash(). -/
structure Block where
  header : Header
  transactions : List Tx
  hashVal : Hash
deriving Repr, DecidableEq

/-- Layer2 state message (types.Layer2State): fields read at submit. -/
structure Layer2State where
  height : Nat
  version : Nat
  sigData : List Nat
deriving Repr, DecidableEq

/-- Outcome of blockStore.GetHeader via GetHeaderByHash: found, the
scom.ErrNotFound case, or any other store error. -/
inductive HeaderLookup where
  | found (h : Header)
  | notFound
  | storeErr
deriving Repr

/-- External cryptographic primitives used by verification. -/
structure CryptoEnv where
  addressFromBookkeepers : List PubKey → Except String Addr
  headerHash : Header → Hash
  layer2StateHash : Layer2State → Hash
  verifyMultiSignature : Hash → List PubKey → Nat → List Nat → Bool

/-- The Byzantine quorum used by both verifiers:
m := len(bookkeepers) - (len(bookkeepers)-1)/3. -/
def quorum (n : Nat) : Nat := n - (n - 1) / 3

/-- verifyHeader from the source: genesis (height 0) is exempt;
otherwise fetch the parent by PrevBlockHash (failing on store error or
absence), require parent.Height+1 == header.Height, parent.Timestamp <
header.Timestamp, the address recomputed from the bookkeeper list equal
to the parent's NextBookkeeper, and a multisignature over the header
hash with threshold `quorum`. -/
def verifyHeader (env : CryptoEnv) (getHeader : Hash → HeaderLookup)
    (header : Header) : Except String Unit :=
  if header.height = 0 then .ok ()
  else
    match getHeader header.prevBlockHash with
    | .storeErr => .error "get prev header error"
    | .notFound => .error "cannot find pre header by blockHash"
    | .found prevHeader =>
      if prevHeader.height + 1 ≠ header.height then
        .error "block height is incorrect"
      else if header.timestamp ≤ prevHeader.timestamp then
        .error "block timestamp is incorrect"
      else
        match env.addressFromBookkeepers header.bookkeepers with
        | .error e => .error e
        | .ok address =>
          if prevHeader.nextBookkeeper ≠ address then
            .error "bookkeeper address error"
          else if env.verifyMultiSignature (env.headerHash header)
              header.bookkeepers (quorum header.bookkeepers.length)
              header.sigData then
            .ok ()
          else
            .error "VerifyMultiSignature error"

/-- verifyLayer2State from the source: multisignature over the layer2
state hash against the supplied bookkeeper list (the containing block
header's) with the same quorum formula. -/
def verifyLayer2State (env : CryptoEnv) (layer2State : Layer2State)
    (bookkeepers : List PubKey) : Except String Unit :=
  if env.verifyMultiSignature (env.layer2StateHash layer2State)
      bookkeepers (quorum bookkeepers.length) layer2State.sigData then
    .ok ()
  else
    .error "VerifyMultiSignature of layer2 state"

/-- C5: verifyHeader accepts every height-0 header unconditionally, and
accepts a non-genesis header exactly when the parent lookup succeeds,
the height increments by one, the timestamp strictly increases, the
address recomputed from the bookkeeper list equals the parent's
next-bookkeeper commitment, and the multisignature over the header hash
verifies with threshold n - (n-1)/3; in particular a bookkeeper-address
mismatch is rejected regardless of signatures. -/
theorem verifyHeader_characterization (env : CryptoEnv)
    (getHeader : Hash → HeaderLookup) (header : Header) :
    (header.height = 0 → verifyHeader env getHeader header = .ok ()) ∧
    (header.height ≠ 0 →
      (verifyHeader env getHeader header = .ok () ↔
        ∃ prevHeader, getHeader header.prevBlockHash = .found prevHeader ∧
          header.height = prevHeader.height + 1 ∧
          prevHeader.timestamp < header.timestamp ∧
          env.addressFromBookkeepers header.bookkeepers =
            .ok prevHeader.nextBookkeeper ∧
          env.verifyMultiSignature (env.headerHash header)
            header.bookkeepers (quorum header.bookkeepers.length)
            header.sigData = true)) ∧
    (∀ prevHeader address, header.height ≠ 0 →
      getHeader header.prevBlockHash = .found prevHeader →
      env.addressFromBookkeepers header.bookkeepers = .ok address →
      address ≠ prevHeader.nextBookkeeper →
      verifyHeader env getHeader header ≠ .ok ()) := by
  unfold verifyHeader
  refine ⟨fun h0 => by simp [h0], fun h0 => ?_, ?_⟩
  · simp only [h0, if_neg h0]
    cases hg : getHeader header.prevBlockHash with
    | storeErr => simp
    | notFound => simp
    | found prevHeader =>
      constructor
      · intro hok
        refine ⟨prevHeader, rfl, ?_⟩
        by_cases hh : prevHeader.height + 1 ≠ header.height
        · simp [hh] at hok
        · simp only [hh, if_false] at hok
          push_neg at hh
          by_cases ht : header.timestamp ≤ prevHeader.timestamp
          · simp [ht] at hok
          · simp only [ht, if_false] at hok
            cases ha : env.addressFromBookkeepers header.bookkeepers with
            | error e => simp [ha] at hok
            | ok address =>
              simp only [ha] at hok
              by_cases hb : prevHeader.nextBookkeeper ≠ address
              · simp [hb] at hok
              · push_neg at hb
                simp only [hb, ne_eq, not_true_eq_false, if_false] at hok
                by_cases hv : env.verifyMultiSignature (env.headerHash header)
                    header.bookkeepers (quorum header.bookkeepers.length)
                    header.sigData = true
                · exact ⟨hh.symm, Nat.lt_of_not_le ht, by rw [hb], hv⟩
                · simp [hv] at hok
      · rintro ⟨prevHeader2, hfe, hh, ht, ha, hv⟩
        injection hfe with hpp
        subst hpp
        have hh2 : ¬ prevHeader.height + 1 ≠ header.height := by omega
        have ht2 : ¬ header.timestamp ≤ prevHeader.timestamp := by omega
        simp [hh2, ht2, ha, hv]
  · intro prevHeader address h0 hg ha hb
    simp only [h0, if_neg h0, hg]
    by_cases hh : prevHeader.height + 1 ≠ header.height
    · simp [hh]
    · simp only [hh, if_false]
      by_cases ht : header.timestamp ≤ prevHeader.timestamp
      · simp [ht]
      · simp only [ht, if_false, ha]
        have hb2 : prevHeader.nextBookkeeper ≠ address := fun he => hb he.symm
        simp [hb2]

/-- A concrete crypto environment for witnesses: the address of a
bookkeeper list is the sum of its keys, hashes are constant, every
multisignature verifies. -/
def cryptoEnvW : CryptoEnv where
  addressFromBookkeepers := fun ks => .ok (ks.foldl (· + ·) 0)
  headerHash := fun _ => 0
  layer2StateHash := fun _ => 0
  verifyMultiSignature := fun _ _ _ _ => true

/-- A concrete non-genesis header for witnesses. -/
def headerW : Header :=
  { height := 1, prevBlockHash := 77, timestamp := 10,
    bookkeepers := [2, 3], nextBookkeeper := 9, blockRoot := 0,
    transactionsRoot := 0, sigData := [1] }

/-- A concrete parent header for witnesses, stored under hash 77. -/
def parentHeaderW : Header :=
  { height := 0, prevBlockHash := 0, timestamp := 4,
    bookkeepers := [2, 3], nextBookkeeper := 5, blockRoot := 0,
    transactionsRoot := 0, sigData := [] }

/-- A concrete header lookup table for witnesses. -/
def getHeaderW : Hash → HeaderLookup :=
  fun h => if h = 77 then .found parentHeaderW else .notFound

/-- Witness for C5: at the concrete environment, the characterization
applies and the non-genesis header headerW is accepted exactly because
every condition holds with parentHeaderW as parent. -/
theorem verifyHeader_characterization_witness :
    verifyHeader cryptoEnvW getHeaderW headerW = .ok () :=
  ((verifyHeader_characterization cryptoEnvW getHeaderW headerW).2.1
    (by decide)).mpr ⟨parentHeaderW, rfl, rfl, by decide, rfl, rfl⟩

/-- A current-block marker (height, hash), as kept in memory by the
ledger store and durably by each sub-store. -/
structure Marker where
  height : Nat
  hash : Hash
deriving Repr, DecidableEq

/-- The three batched sub-stores of the commit protocol. -/
inductive StoreKind where
  | blockS
  | eventS
  | stateS
deriving Repr, DecidableEq

/-- Observable store operations performed by submitBlock, in program
order.  `stageBlock` covers saveBlockToBlockStore (header index,
current marker, block hash, block body, all staged in the block-store
batch), `stageLayer2` covers layer2Store.SaveMsgToLayer2Store,
`stageState` covers saveBlockToStateStore, `stageEvent` covers
saveBlockToEventStore; `commit s` is s.CommitTo() succeeding, and
`setCurrent` is the in-memory setCurrentBlock update. -/
inductive Ev where
  | newBatch (s : StoreKind)
  | stageBlock
  | stageLayer2
  | stageState
  | stageEvent
  | commit (s : StoreKind)
  | setCurrent (m : Marker)
deriving Repr, DecidableEq

/-- Fault injection for the external stores during submitBlock: each
flag makes the corresponding fallible call return a non-nil error.
`computedBlockRoot` is the value returned by
GetBlockRootWithNewTxRoots for this block (a read of the external
state store's rolling merkle accumulator). -/
structure Faults where
  computedBlockRoot : Hash
  saveBlockErr : Bool
  saveLayer2Err : Bool
  saveStateErr : Bool
  commitBlockErr : Bool
  commitEventErr : Bool
  commitStateErr : Bool
deriving Repr, DecidableEq

/-- In-memory and durable state touched by the ledger store: the
in-memory current pointer and header index, the durable current
markers of the three sub-stores, and the closing flag. -/
structure LedgerState where
  curr : Marker
  headerIndex : List (Nat × Hash)
  blockMarker : Marker
  eventMarker : Marker
  stateMarker : Marker
  closing : Bool
deriving Repr, DecidableEq

/-- Result of a mutating ledger-store call: the state after the call,
the trace of store operations it performed, and the returned error
(none is the Go nil error). -/
structure StepRes where
  st : LedgerState
  trace : List Ev
  err : Option String
deriving Repr, DecidableEq

/-- The inner submitBlock from the source: check the recomputed block
root against the header (skipped at genesis height 0); open the three
batches (block, state, event, in the order of the NewBatch calls);
stage the block-store writes, the layer2 message, the state-store
writes and the event-store writes; then commit block store, event
store, state store in that order, returning the wrapped error at the
first failure; only after all three commits succeed, setCurrentBlock
advances the in-memory pointer.  A successful commit makes the staged
current marker of that sub-store durable. -/
def submitBlock (st : LedgerState) (block : Block)
    (f : Faults) : StepRes :=
  let m : Marker := ⟨block.header.height, block.hashVal⟩
  if block.header.height ≠ 0 ∧ f.computedBlockRoot ≠ block.header.blockRoot then
    ⟨st, [], some "wrong block root"⟩
  else
    let tr0 := [Ev.newBatch .blockS, Ev.newBatch .stateS, Ev.newBatch .eventS]
    if f.saveBlockErr then ⟨st, tr0, some "save to block store error"⟩
    else
      let st1 := { st with headerIndex := (m.height, m.hash) :: st.headerIndex }
      let tr1 := tr0 ++ [Ev.stageBlock]
      if f.saveLayer2Err then ⟨st1, tr1, some "save to msg layer2 state store error"⟩
      else
        let tr2 := tr1 ++ [Ev.stageLayer2]
        if f.saveStateErr then ⟨st1, tr2, some "save to state store error"⟩
        else
          let tr3 := tr2 ++ [Ev.stageState, Ev.stageEvent]
          if f.commitBlockErr then ⟨st1, tr3, some "blockStore.CommitTo error"⟩
          else
            let st2 := { st1 with blockMarker := m }
            let tr4 := tr3 ++ [Ev.commit .blockS]
            if f.commitEventErr then ⟨st2, tr4, some "eventStore.CommitTo error"⟩
            else
              let st3 := { st2 with eventMarker := m }
              let tr5 := tr4 ++ [Ev.commit .eventS]
              if f.commitStateErr then ⟨st3, tr5, some "stateStore.CommitTo error"⟩
              else
                let st4 := { st3 with stateMarker := m }
                ⟨{ st4 with curr := m },
                  tr5 ++ [Ev.commit .stateS, Ev.setCurrent m], none⟩

/-- The sequence of sub-store commits recorded in a trace. -/
def commitsOf (tr : List Ev) : List StoreKind :=
  tr.filterMap fun e =>
    match e with
    | .commit s => some s
    | _ => none

/-- C1: in every run of submitBlock the performed commits form a
prefix of the fixed order block store, event store, state store; a
later commit happens only if the earlier one was attempted and
succeeded; the in-memory pointer advances exactly when the call
returns no error (after all three commits), and any failure leaves the
in-memory pointer as it was before the call. -/
theorem submitBlock_commit_order (st : LedgerState) (block : Block)
    (f : Faults) :
    (commitsOf (submitBlock st block f).trace = [] ∨
     commitsOf (submitBlock st block f).trace = [.blockS] ∨
     commitsOf (submitBlock st block f).trace = [.blockS, .eventS] ∨
     commitsOf (submitBlock st block f).trace = [.blockS, .eventS, .stateS]) ∧
    (Ev.commit .eventS ∈ (submitBlock st block f).trace →
      f.commitBlockErr = false ∧
        Ev.commit .blockS ∈ (submitBlock st block f).trace) ∧
    (Ev.commit .stateS ∈ (submitBlock st block f).trace →
      f.commitEventErr = false ∧
        Ev.commit .eventS ∈ (submitBlock st block f).trace) ∧
    ((submitBlock st block f).err = none ↔
      commitsOf (submitBlock st block f).trace =
        [.blockS, .eventS, .stateS]) ∧
    ((submitBlock st block f).err = none →
      (submitBlock st block f).st.curr =
        ⟨block.header.height, block.hashVal⟩) ∧
    ((submitBlock st block f).err ≠ none →
      (submitBlock st block f).st.curr = st.curr) := by
  by_cases h0 : block.header.height ≠ 0 ∧
      f.computedBlockRoot ≠ block.header.blockRoot <;>
    cases hsb : f.saveBlockErr <;> cases hsl : f.saveLayer2Err <;>
    cases hss : f.saveStateErr <;> cases hcb : f.commitBlockErr <;>
    cases hce : f.commitEventErr <;> cases hcs : f.commitStateErr <;>
    simp [submitBlock, commitsOf, h0, hsb, hsl, hss, hcb, hce, hcs]

/-- A concrete ledger state for witnesses: current block (5, 55), all
durable markers agreeing, not closing. -/
def ledgerW : LedgerState :=
  { curr := ⟨5, 55⟩, headerIndex := [], blockMarker := ⟨5, 55⟩,
    eventMarker := ⟨5, 55⟩, stateMarker := ⟨5, 55⟩, closing := false }

/-- The header of the concrete witness block at height 6. -/
def blockWHeader : Header :=
  { height := 6, prevBlockHash := 55, timestamp := 20,
    bookkeepers := [2, 3], nextBookkeeper := 9, blockRoot := 42,
    transactionsRoot := 0, sigData := [1] }

/-- A concrete block at height 6 for witnesses. -/
def blockW : Block :=
  { header := blockWHeader, transactions := [], hashVal := 66 }

/-- A fault-free environment whose recomputed block root matches
blockW. -/
def faultsW : Faults :=
  { computedBlockRoot := 42, saveBlockErr := false, saveLayer2Err := false,
    saveStateErr := false, commitBlockErr := false,
    commitEventErr := false, commitStateErr := false }

/-- Witness for C1: on the fault-free run the theorem applies, the
state-store commit implies the event-store commit happened, and the
absent error implies the pointer advanced to (6, 66). -/
theorem submitBlock_commit_order_witness :
    Ev.commit .eventS ∈ (submitBlock ledgerW blockW faultsW).trace ∧
    (submitBlock ledgerW blockW faultsW).st.curr = ⟨6, 66⟩ :=
  ⟨((submitBlock_commit_order ledgerW blockW faultsW).2.2.1
      (by decide)).2,
    (submitBlock_commit_order ledgerW blockW faultsW).2.2.2.2.1 (by decide)⟩

/-- A per-transaction execution notification (event.ExecuteNotify):
its transaction hash and whether the contract state is
CONTRACT_STATE_SUCCESS (`true`) or CONTRACT_STATE_FAIL (`false`). -/
structure Notify where
  txHash : Hash
  success : Bool
deriving Repr, DecidableEq

/-- handleTransaction from the source: the notification starts in the
FAIL state; for Deploy and InvokeNeo transactions the external handler
runs (setting the success state unless it returns an engine error,
which is only logged), and a non-nil overlay.Error() afterwards aborts
with a wrapped error; any other transaction type falls through the
switch and returns the FAIL notification with a nil error. -/
def handleTransaction (tx : Tx) : Except String Notify :=
  match tx.txType with
  | .deploy =>
    if tx.overlayErr then .error "HandleDeployTransaction overlay error"
    else .ok ⟨tx.hashVal, !tx.engineErr⟩
  | .invokeNeo =>
    if tx.overlayErr then .error "HandleInvokeTransaction overlay error"
    else .ok ⟨tx.hashVal, !tx.engineErr⟩
  | .other => .ok ⟨tx.hashVal, false⟩

/-- The transaction loop of executeBlock: handle each transaction in
order, appending its notification; the first transaction whose handler
returns a non-nil error aborts the loop with that error. -/
def handleTxs : List Tx → Except String (List Notify)
  | [] => .ok []
  | tx :: rest =>
    match handleTransaction tx with
    | .error e => .error e
    | .ok n =>
      match handleTxs rest with
      | .error e => .error e
      | .ok ns => .ok (n :: ns)

/-- The notification that handleTransaction produces for a
transaction whose overlay stayed healthy. -/
def notifyOf (tx : Tx) : Notify :=
  match tx.txType with
  | .other => ⟨tx.hashVal, false⟩
  | _ => ⟨tx.hashVal, !tx.engineErr⟩

/-- common.ADDR_LEN: addresses are 20 bytes. -/
def ADDR_LEN : Nat := 20

/-- isAccountUpdateStore from the source: an account-update key has
the shape [ST_STORAGE : ContractAddr : UserAddr], length 1 + 20 + 20 =
41 bytes. -/
def isAccountUpdateStore (key : List Nat) : Bool := key.length = 41

/-- Insert a value for an account address into the accumulated state
map, mirroring the body of the memdb.ForEach callback of
calculateChangeStateRoot: a new address gets a fresh entry, an
existing one has the value appended. -/
def updateAccountStates : List (List Nat × List Nat) → List Nat →
    List Nat → List (List Nat × List Nat)
  | [], addr, val => [(addr, val)]
  | (k, w) :: rest, addr, val =>
    if k = addr then (k, w ++ val) :: rest
    else (k, w) :: updateAccountStates rest addr val

/-- The `states` map of calculateChangeStateRoot, built by iterating
the memdb entries in order: keys of length other than 41 are skipped,
the account address is the 20 bytes after the ST_STORAGE tag and the
contract address, and values for the same account are concatenated. -/
def groupStates (entries : List (List Nat × List Nat)) :
    List (List Nat × List Nat) :=
  entries.foldl
    (fun acc kv =>
      if isAccountUpdateStore kv.1 then
        updateAccountStates acc (kv.1.drop (ADDR_LEN + 1)) kv.2
      else acc)
    []

/-- bytes.Compare on byte lists. -/
def bytesCompare : List Nat → List Nat → Ordering
  | [], [] => .eq
  | [], _ :: _ => .lt
  | _ :: _, [] => .gt
  | a :: as, b :: bs =>
    if a < b then .lt else if b < a then .gt else bytesCompare as bs

/-- calculateChangeStateRoot from the source.  `sha` stands for the
sha256 of a value and `treeHash` for
merkle.TreeHasher.HashFullTreeWithLeafHash.  The Go function ranges
over the map `states` to build the hash list; Go map iteration order is
unspecified, so that order enters the model as the explicit parameter
`mapOrder` (a listing of the map's keys).  The sorted `stateSlice` the
source computes is reproduced here as the dead local `_stateSlice`:
exactly as in the source, it is never used afterwards. -/
def calculateChangeStateRoot (sha : List Nat → Hash)
    (treeHash : List Hash → Hash) (entries : List (List Nat × List Nat))
    (mapOrder : List (List Nat)) : Hash × List Hash :=
  let states := groupStates entries
  let _stateSlice :=
    states.mergeSort fun a b => bytesCompare a.1 b.1 = .gt
  let hashs := mapOrder.filterMap fun k => (states.lookup k).map sha
  match hashs with
  | [] => (UINT256_EMPTY, [])
  | _ => (treeHash hashs, hashs)

/-- The byte stream a store iterator feeds into the running hasher in
accumulateHash: each entry's key then value, in iterator order. -/
def accumulateBytes (entries : List (List Nat × List Nat)) : List Nat :=
  entries.foldl (fun acc kv => acc ++ kv.1 ++ kv.2) []

/-- Environment of executeBlock: the configured checkpoint height T
(stateHashCheckHeight), the behaviour of the external overlay and
state store (change hash, write set, the contract- and storage-prefix
iterator contents and a possible iterator error), the external hash
primitives, the incremental-merkle extension
GetStateMerkleRootWithNewHash, the memdb contents seen by
calculateChangeStateRoot together with a Go map iteration order, and a
possible refreshGlobalParam failure. -/
structure ExecEnv where
  stateHashCheckHeight : Nat
  refreshParamErr : Bool
  changeHash : Hash
  writeSet : List (List Nat × List Nat)
  contractEntries : List (List Nat × List Nat)
  storageEntries : List (List Nat × List Nat)
  iterErr : Bool
  sha : List Nat → Hash
  treeHash : List Hash → Hash
  extendMerkle : Hash → Hash
  memdbEntries : List (List Nat × List Nat)
  mapOrder : List (List Nat)

/-- calculateTotalStateHash from the source: one hasher accumulates
every contract entry (ST_CONTRACT iterator) and then every storage
entry (ST_STORAGE iterator); an iterator error aborts. -/
def calculateTotalStateHash (env : ExecEnv) : Except String Hash :=
  if env.iterErr then .error "iterator error"
  else .ok (env.sha (accumulateBytes env.contractEntries ++
    accumulateBytes env.storageEntries))

/-- store.ExecuteResult: aggregate change hash, merkle/state root,
raw write set, per-transaction notifications, and the derived
account-level root with its ordered per-account hash list. -/
structure ExecResult where
  hash : Hash
  merkleRoot : Hash
  writeSet : List (List Nat × List Nat)
  notify : List Notify
  updatedAccountStateRoot : Hash
  updatedAccountState : List Hash
deriving Repr, DecidableEq

/-- executeBlock from the source: refresh the global parameter cache
for non-genesis heights (a failure aborts), execute each transaction
in order collecting notifications, take the overlay's aggregate change
hash and write set, then compute the merkle root by the three-phase
checkpoint policy — below T the empty hash, at T the one-time total
state hash (which also replaces the change hash), above T the merkle
chain extended with the change hash — and finally derive the
account-level state root and hash list. -/
def executeBlock (env : ExecEnv) (block : Block) :
    Except String ExecResult :=
  if block.header.height ≠ 0 ∧ env.refreshParamErr then
    .error "refreshGlobalParam error"
  else
    match handleTxs block.transactions with
    | .error e => .error e
    | .ok notifies =>
      let acct := calculateChangeStateRoot env.sha env.treeHash
        env.memdbEntries env.mapOrder
      if block.header.height < env.stateHashCheckHeight then
        .ok { hash := env.changeHash, merkleRoot := UINT256_EMPTY,
              writeSet := env.writeSet, notify := notifies,
              updatedAccountStateRoot := acct.1,
              updatedAccountState := acct.2 }
      else if block.header.height = env.stateHashCheckHeight then
        match calculateTotalStateHash env with
        | .error e => .error e
        | .ok res =>
          .ok { hash := res, merkleRoot := res,
                writeSet := env.writeSet, notify := notifies,
                updatedAccountStateRoot := acct.1,
                updatedAccountState := acct.2 }
      else
        .ok { hash := env.changeHash,
              merkleRoot := env.extendMerkle env.changeHash,
              writeSet := env.writeSet, notify := notifies,
              updatedAccountStateRoot := acct.1,
              updatedAccountState := acct.2 }

/-- Helper: when no transaction leaves an overlay error, the loop
succeeds and produces exactly one notification per transaction. -/
theorem handleTxs_ok (txs : List Tx)
    (h : ∀ tx ∈ txs, tx.overlayErr = false) :
    handleTxs txs = .ok (txs.map notifyOf) := by
  induction txs with
  | nil => rfl
  | cons tx rest ih =>
    have htx : tx.overlayErr = false := h tx (List.mem_cons_self tx rest)
    have hr : handleTxs rest = .ok (rest.map notifyOf) :=
      ih fun t ht => h t (List.mem_cons_of_mem tx ht)
    cases hty : tx.txType <;>
      simp [handleTxs, handleTransaction, hty, htx, hr, notifyOf]

/-- Helper: a transaction with an overlay error makes the loop abort
with an error. -/
theorem handleTxs_err (txs : List Tx)
    (h : ∃ tx ∈ txs, tx.overlayErr = true ∧ tx.txType ≠ .other) :
    ∃ e, handleTxs txs = .error e := by
  induction txs with
  | nil => simp at h
  | cons tx rest ih =>
    rcases h with ⟨t, ht, hov, hty⟩
    rcases List.mem_cons.mp ht with rfl | hmem
    · cases h2 : t.txType with
      | deploy =>
        exact ⟨"HandleDeployTransaction overlay error",
          by simp [handleTxs, handleTransaction, h2, hov]⟩
      | invokeNeo =>
        exact ⟨"HandleInvokeTransaction overlay error",
          by simp [handleTxs, handleTransaction, h2, hov]⟩
      | other => exact absurd h2 hty
    · rcases ih ⟨t, hmem, hov, hty⟩ with ⟨e, he⟩
      cases h1 : handleTransaction tx with
      | error e2 => exact ⟨e2, by simp [handleTxs, h1]⟩
      | ok n => exact ⟨e, by simp [handleTxs, h1, he]⟩

/-- The one-time total state hash in the fault-free case. -/
def totalSha (env : ExecEnv) : Hash :=
  env.sha (accumulateBytes env.contractEntries ++
    accumulateBytes env.storageEntries)

/-- Helper: the explicit successful executeBlock result, given a
successful transaction loop and healthy infrastructure. -/
theorem executeBlock_ok (env : ExecEnv) (block : Block)
    (ns : List Notify) (htx : handleTxs block.transactions = .ok ns)
    (hrf : env.refreshParamErr = false) (hit : env.iterErr = false) :
    executeBlock env block = .ok
      { hash := if block.header.height = env.stateHashCheckHeight then
          totalSha env else env.changeHash,
        merkleRoot :=
          if block.header.height < env.stateHashCheckHeight then
            UINT256_EMPTY
          else if block.header.height = env.stateHashCheckHeight then
            totalSha env
          else env.extendMerkle env.changeHash,
        writeSet := env.writeSet, notify := ns,
        updatedAccountStateRoot := (calculateChangeStateRoot env.sha
          env.treeHash env.memdbEntries env.mapOrder).1,
        updatedAccountState := (calculateChangeStateRoot env.sha
          env.treeHash env.memdbEntries env.mapOrder).2 } := by
  have h0 : ¬(block.header.height ≠ 0 ∧ env.refreshParamErr = true) := by
    simp [hrf]
  unfold executeBlock
  rw [if_neg h0]
  simp only [htx]
  by_cases hlt : block.header.height < env.stateHashCheckHeight
  · simp [hlt, Nat.ne_of_lt hlt]
  · by_cases heq : block.header.height = env.stateHashCheckHeight
    · simp [hlt, heq, calculateTotalStateHash, totalSha, hit]
    · simp [hlt, heq]

/-- C7: an execution-engine error on a single Deploy or InvokeNeo
transaction does not abort executeBlock — when every transaction
leaves the overlay healthy (and the block-level infrastructure calls
succeed) the block executes successfully with exactly one notification
per transaction, an engine-failed transaction being recorded as a
failed notification and the rest succeeding; only an overlay fault on
some handled transaction aborts the whole block with an error. -/
theorem executeBlock_engine_errors_do_not_abort (env : ExecEnv)
    (block : Block) :
    ((∀ tx ∈ block.transactions, tx.overlayErr = false) →
      env.refreshParamErr = false → env.iterErr = false →
      ∃ r, executeBlock env block = .ok r ∧
        r.notify = block.transactions.map notifyOf ∧
        ∀ tx ∈ block.transactions, tx.txType ≠ .other →
          ((notifyOf tx).success = false ↔ tx.engineErr = true)) ∧
    ((∃ tx ∈ block.transactions, tx.overlayErr = true ∧
        tx.txType ≠ .other) →
      ∃ e, executeBlock env block = .error e) := by
  constructor
  · intro hov hrf hit
    have htx := handleTxs_ok block.transactions hov
    have hnot : ∀ tx ∈ block.transactions, tx.txType ≠ .other →
        ((notifyOf tx).success = false ↔ tx.engineErr = true) := by
      intro tx _ hty
      cases h2 : tx.txType with
      | deploy => cases he : tx.engineErr <;> simp [notifyOf, h2, he]
      | invokeNeo => cases he : tx.engineErr <;> simp [notifyOf, h2, he]
      | other => exact absurd h2 hty
    exact ⟨_, executeBlock_ok env block _ htx hrf hit, rfl, hnot⟩
  · intro hov
    rcases handleTxs_err block.transactions hov with ⟨e, he⟩
    by_cases h0 : block.header.height ≠ 0 ∧ env.refreshParamErr = true
    · exact ⟨"refreshGlobalParam error",
        by unfold executeBlock; rw [if_pos h0]⟩
    · exact ⟨e, by unfold executeBlock; rw [if_neg h0]; simp only [he]⟩

/-- A concrete execution environment for witnesses: checkpoint height
3, healthy infrastructure, simple arithmetic stand-ins for the
external hash primitives. -/
def execEnvW : ExecEnv :=
  { stateHashCheckHeight := 3, refreshParamErr := false,
    changeHash := 17, writeSet := [], contractEntries := [([1], [2])],
    storageEntries := [([3], [4])], iterErr := false,
    sha := fun l => l.foldl (· + ·) 0,
    treeHash := fun l => l.foldl (fun a h => a * 1000 + h) 7,
    extendMerkle := fun h => h + 100, memdbEntries := [],
    mapOrder := [] }

/-- Two concrete transactions for witnesses: an InvokeNeo transaction
whose engine fails (healthy overlay) next to a succeeding one. -/
def txFailW : Tx :=
  { txType := .invokeNeo, hashVal := 21, overlayErr := false,
    engineErr := true }

/-- A succeeding InvokeNeo transaction for witnesses. -/
def txOkW : Tx :=
  { txType := .invokeNeo, hashVal := 22, overlayErr := false,
    engineErr := false }

/-- A concrete block at height 6 holding txFailW and txOkW. -/
def blockTxW : Block :=
  { header := blockWHeader, transactions := [txFailW, txOkW],
    hashVal := 66 }

/-- Witness for C7: the block with one engine-failed transaction still
executes successfully, and its notification list marks exactly that
transaction as failed. -/
theorem executeBlock_engine_errors_do_not_abort_witness :
    ∃ r, executeBlock execEnvW blockTxW = .ok r ∧
      r.notify = [⟨21, false⟩, ⟨22, true⟩] := by
  rcases (executeBlock_engine_errors_do_not_abort execEnvW blockTxW).1
      (by decide) rfl rfl with ⟨r, hr, hn, _⟩
  exact ⟨r, hr, by rw [hn]; rfl⟩

/-- C8: the merkle/state root computed by executeBlock follows the
three-phase policy keyed by the checkpoint height T: strictly below T
it is the empty Uint256, at exactly T it is the one-time total hash
over every contract and storage entry of the overlay, and strictly
above T it is the previous merkle chain extended with the block's
aggregate change hash. -/
theorem executeBlock_merkle_root_policy (env : ExecEnv) (block : Block)
    (r : ExecResult) (h : executeBlock env block = .ok r) :
    r.merkleRoot =
      if block.header.height < env.stateHashCheckHeight then
        UINT256_EMPTY
      else if block.header.height = env.stateHashCheckHeight then
        env.sha (accumulateBytes env.contractEntries ++
          accumulateBytes env.storageEntries)
      else env.extendMerkle env.changeHash := by
  unfold executeBlock at h
  by_cases h0 : block.header.height ≠ 0 ∧ env.refreshParamErr = true
  · rw [if_pos h0] at h
    exact absurd h (by simp)
  · rw [if_neg h0] at h
    cases htx : handleTxs block.transactions with
    | error e =>
      simp only [htx] at h
      exact absurd h (by simp)
    | ok ns =>
      simp only [htx] at h
      by_cases hlt : block.header.height < env.stateHashCheckHeight
      · rw [if_pos hlt] at h
        injection h with h2
        subst h2
        simp [hlt]
      · rw [if_neg hlt] at h
        by_cases heq : block.header.height = env.stateHashCheckHeight
        · rw [if_pos heq] at h
          cases hts : calculateTotalStateHash env with
          | error e =>
            simp only [hts] at h
            exact absurd h (by simp)
          | ok res =>
            simp only [hts] at h
            injection h with h2
            subst h2
            unfold calculateTotalStateHash at hts
            by_cases hit : env.iterErr = true
            · rw [if_pos hit] at hts
              exact absurd hts (by simp)
            · rw [if_neg hit] at hts
              injection hts with h3
              subst h3
              simp [hlt, heq]
        · rw [if_neg heq] at h
          injection h with h2
          subst h2
          simp [hlt, heq]

/-- Witness for C8: executeBlock at height 6 with checkpoint height 3
lands in the incremental phase, so the root is the extended chain
17 + 100. -/
theorem executeBlock_merkle_root_policy_witness :
    ∃ r, executeBlock execEnvW blockTxW = .ok r ∧ r.merkleRoot = 117 := by
  rcases (executeBlock_engine_errors_do_not_abort execEnvW blockTxW).1
      (by decide) rfl rfl with ⟨r, hr, _, _⟩
  refine ⟨r, hr, ?_⟩
  rw [executeBlock_merkle_root_policy execEnvW blockTxW r hr]
  rfl

/-- A 41-byte account-update key touching account address 1…1 (tag and
contract address all zero). -/
def keyAW : List Nat := List.replicate 21 0 ++ List.replicate 20 1

/-- A 41-byte account-update key touching account address 2…2. -/
def keyBW : List Nat := List.replicate 21 0 ++ List.replicate 20 2

/-- The 20-byte account address extracted from keyAW. -/
def addrAW : List Nat := List.replicate 20 1

/-- The 20-byte account address extracted from keyBW. -/
def addrBW : List Nat := List.replicate 20 2

/-- A concrete memdb content updating the two distinct accounts. -/
def entriesW : List (List Nat × List Nat) := [(keyAW, [3]), (keyBW, [4])]

/-- Concrete stand-in for sha256 over a value: the byte sum. -/
def shaSumW : List Nat → Hash := fun l => l.foldl (· + ·) 0

/-- Concrete order-sensitive stand-in for
TreeHasher.HashFullTreeWithLeafHash. -/
def treeHashW : List Hash → Hash :=
  fun l => l.foldl (fun a h => a * 1000 + h) 7

/-- C9: the list of per-account change hashes built by
calculateChangeStateRoot is NOT produced in one fixed sorted order —
it ranges over the Go map `states`, whose iteration order is
unspecified, while the sorted stateSlice is computed and never used.
For a block updating the two distinct accounts of entriesW, the two
legitimate map orders (both permutations of the grouped keys, the
first being exactly the insertion order of the map) yield different
hash lists and different roots, refuting the claimed determinism. -/
theorem calculateChangeStateRoot_order_dependent :
    List.Perm [addrAW, addrBW] [addrBW, addrAW] ∧
    (groupStates entriesW).map Prod.fst = [addrAW, addrBW] ∧
    (calculateChangeStateRoot shaSumW treeHashW entriesW
      [addrAW, addrBW]).2 = [3, 4] ∧
    (calculateChangeStateRoot shaSumW treeHashW entriesW
      [addrBW, addrAW]).2 = [4, 3] ∧
    (calculateChangeStateRoot shaSumW treeHashW entriesW
      [addrAW, addrBW]).2 ≠
      (calculateChangeStateRoot shaSumW treeHashW entriesW
        [addrBW, addrAW]).2 ∧
    (calculateChangeStateRoot shaSumW treeHashW entriesW
      [addrAW, addrBW]).1 ≠
      (calculateChangeStateRoot shaSumW treeHashW entriesW
        [addrBW, addrAW]).1 := by
  decide

/-- Environment of the public ExecuteBlock / SubmitBlock entry points:
crypto primitives, the header lookup backing GetHeaderByHash, the
execution environment, the store fault flags of the commit protocol,
the persisted state merkle roots (stateStore.GetStateMerkleRoot), and
the expected layer2 state version
(types.CURR_LAYER2_STATE_VERSION). -/
structure LedgerEnv where
  crypto : CryptoEnv
  getHeader : Hash → HeaderLookup
  exec : ExecEnv
  faults : Faults
  getStateMerkleRoot : Nat → Except String Hash
  currLayer2Version : Nat

/-- Outcome of ExecuteBlock: either the replay branch, which only
reads the already-persisted state root for the block's height, or a
fresh execution. -/
inductive ExecOutcome where
  | replay (root : Hash)
  | executed (r : ExecResult)
deriving Repr, DecidableEq

/-- The public ExecuteBlock from the source: under the writer gate, a
height at or below the current one returns the persisted state merkle
root for that height (replay no-op); a height other than current + 1
is rejected; otherwise the block is executed (no durable mutation in
any branch). -/
def ExecuteBlockM (env : LedgerEnv) (st : LedgerState) (block : Block) :
    Except String ExecOutcome :=
  if block.header.height ≤ st.curr.height then
    match env.getStateMerkleRoot block.header.height with
    | .error e => .error e
    | .ok root => .ok (.replay root)
  else if block.header.height ≠ st.curr.height + 1 then
    .error "block height not equal next block height"
  else
    match executeBlock env.exec block with
    | .error e => .error e
    | .ok r => .ok (.executed r)

/-- The public SubmitBlock from the source: under the writer gate,
fail if closing; return nil for heights at or below current (no-op);
reject heights other than current + 1; verify the header; when a
layer2 state accompanies the block, check its height against
current + 1, its version against the expected version, and its
multisignature against the block header's bookkeepers; then run the
inner submitBlock. -/
def SubmitBlockM (env : LedgerEnv) (st : LedgerState) (block : Block)
    (layer2State : Option Layer2State) : StepRes :=
  if st.closing then ⟨st, [], some "save block error: ledger is closing"⟩
  else if block.header.height ≤ st.curr.height then ⟨st, [], none⟩
  else if block.header.height ≠ st.curr.height + 1 then
    ⟨st, [], some "block height not equal next block height"⟩
  else
    match verifyHeader env.crypto env.getHeader block.header with
    | .error _ => ⟨st, [], some "verifyHeader error"⟩
    | .ok _ =>
      match layer2State with
      | some l2 =>
        if l2.height ≠ st.curr.height + 1 then
          ⟨st, [], some "layer2 state msg height not equal next block height"⟩
        else if l2.version ≠ env.currLayer2Version then
          ⟨st, [], some "error layer2 state msg version"⟩
        else
          match verifyLayer2State env.crypto l2 block.header.bookkeepers with
          | .error _ => ⟨st, [], some "verifyLayer2State error"⟩
          | .ok _ => submitBlock st block env.faults
      | none => submitBlock st block env.faults

/-- The concrete entry-point environment for witnesses and
counterexamples: persisted state roots are 100 + height. -/
def ledgerEnvW : LedgerEnv :=
  { crypto := cryptoEnvW, getHeader := getHeaderW, exec := execEnvW,
    faults := faultsW, getStateMerkleRoot := fun h => .ok (100 + h),
    currLayer2Version := 1 }

/-- The header of the concrete block at height 3. -/
def blockLowWHeader : Header :=
  { height := 3, prevBlockHash := 11, timestamp := 9,
    bookkeepers := [2, 3], nextBookkeeper := 9, blockRoot := 0,
    transactionsRoot := 0, sigData := [1] }

/-- A concrete block at height 3, below the current height 5 of
ledgerW. -/
def blockLowW : Block :=
  { header := blockLowWHeader, transactions := [], hashVal := 33 }

/-- The header of the concrete block at height 9. -/
def blockHighWHeader : Header :=
  { height := 9, prevBlockHash := 11, timestamp := 9,
    bookkeepers := [2, 3], nextBookkeeper := 9, blockRoot := 0,
    transactionsRoot := 0, sigData := [1] }

/-- A concrete block at height 9, more than one ahead of the current
height 5 of ledgerW. -/
def blockHighW : Block :=
  { header := blockHighWHeader, transactions := [], hashVal := 99 }

/-- A layer2 state whose height 99 matches no next block height, with
the expected version. -/
def layer2BadW : Layer2State := { height := 99, version := 1, sigData := [] }

/-- C3 counterexample: SubmitBlock with a block height below the
current height does NOT fail — it returns a nil error (and leaves the
state untouched), although the height differs from currentHeight + 1.
The claim that every such call returns a non-nil error is false. -/
theorem SubmitBlock_low_height_returns_nil :
    blockLowW.header.height ≠ ledgerW.curr.height + 1 ∧
    SubmitBlockM ledgerEnvW ledgerW blockLowW none =
      ⟨ledgerW, [], none⟩ :=
  ⟨by decide, rfl⟩

/-- C3 amended: SubmitBlock with height strictly above
currentHeight + 1 fails with a non-nil error and performs no store
operation, leaving every sub-store marker unchanged; a height at or
below currentHeight returns a nil error as a pure no-op, likewise
leaving every marker unchanged. -/
theorem SubmitBlock_out_of_order (env : LedgerEnv) (st : LedgerState)
    (block : Block) (l2 : Option Layer2State)
    (hcl : st.closing = false) :
    (block.header.height ≤ st.curr.height →
      SubmitBlockM env st block l2 = ⟨st, [], none⟩) ∧
    (block.header.height > st.curr.height + 1 →
      (SubmitBlockM env st block l2).err ≠ none ∧
      (SubmitBlockM env st block l2).st = st ∧
      (SubmitBlockM env st block l2).trace = []) := by
  constructor
  · intro hle
    unfold SubmitBlockM
    rw [if_neg (by simp [hcl]), if_pos hle]
  · intro hgt
    have h1 : ¬ block.header.height ≤ st.curr.height := by omega
    have h2 : block.header.height ≠ st.curr.height + 1 := by omega
    unfold SubmitBlockM
    rw [if_neg (by simp [hcl]), if_neg h1, if_pos h2]
    exact ⟨by simp, rfl, rfl⟩

/-- Witness for C3: the no-op branch of the amended claim at the
concrete low block, and the failing branch at the concrete high
block. -/
theorem SubmitBlock_out_of_order_witness :
    SubmitBlockM ledgerEnvW ledgerW blockLowW none = ⟨ledgerW, [], none⟩ ∧
    (SubmitBlockM ledgerEnvW ledgerW blockHighW none).err ≠ none :=
  ⟨(SubmitBlock_out_of_order ledgerEnvW ledgerW blockLowW none rfl).1
      (by decide),
    ((SubmitBlock_out_of_order ledgerEnvW ledgerW blockHighW none rfl).2
      (by decide)).1⟩

/-- C4: a block at or below the current height is an idempotent
replay — ExecuteBlock does not re-execute it and returns the
previously persisted state merkle root for that height while touching
no store, and SubmitBlock on the same block is a nil-error no-op with
an empty operation trace; ExecuteBlock with a height strictly above
current + 1 is rejected with an error, also without touching
storage. -/
theorem replay_is_noop (env : LedgerEnv) (st : LedgerState)
    (block : Block) (l2 : Option Layer2State)
    (hcl : st.closing = false) :
    (block.header.height ≤ st.curr.height →
      (∀ root, env.getStateMerkleRoot block.header.height = .ok root →
        ExecuteBlockM env st block = .ok (.replay root)) ∧
      SubmitBlockM env st block l2 = ⟨st, [], none⟩) ∧
    (block.header.height > st.curr.height + 1 →
      (ExecuteBlockM env st block).toOption = none) := by
  constructor
  · intro hle
    constructor
    · intro root hroot
      unfold ExecuteBlockM
      rw [if_pos hle]
      simp only [hroot]
    · unfold SubmitBlockM
      rw [if_neg (by simp [hcl]), if_pos hle]
  · intro hgt
    have h1 : ¬ block.header.height ≤ st.curr.height := by omega
    have h2 : block.header.height ≠ st.curr.height + 1 := by omega
    unfold ExecuteBlockM
    rw [if_neg h1, if_pos h2]
    rfl

/-- Witness for C4: replaying the concrete height-3 block returns the
persisted root 103 and the SubmitBlock no-op, and the concrete
height-9 block is rejected by ExecuteBlock. -/
theorem replay_is_noop_witness :
    ExecuteBlockM ledgerEnvW ledgerW blockLowW = .ok (.replay 103) ∧
    SubmitBlockM ledgerEnvW ledgerW blockLowW none = ⟨ledgerW, [], none⟩ ∧
    (ExecuteBlockM ledgerEnvW ledgerW blockHighW).toOption = none :=
  ⟨((replay_is_noop ledgerEnvW ledgerW blockLowW none rfl).1
      (by decide)).1 103 rfl,
    ((replay_is_noop ledgerEnvW ledgerW blockLowW none rfl).1
      (by decide)).2,
    (replay_is_noop ledgerEnvW ledgerW blockHighW none rfl).2 (by decide)⟩

/-- C6 counterexample: when the block itself sits at or below the
current height, SubmitBlock returns a nil error without examining the
accompanying layer2 state at all — here the layer2 state's height 99
differs from currentHeight + 1 = 6, yet no error is returned.  The
claim that any failing layer2 check makes SubmitBlock return an error
is false as stated. -/
theorem SubmitBlock_layer2_skipped_on_replay :
    layer2BadW.height ≠ ledgerW.curr.height + 1 ∧
    SubmitBlockM ledgerEnvW ledgerW blockLowW (some layer2BadW) =
      ⟨ledgerW, [], none⟩ :=
  ⟨by decide, rfl⟩

/-- C6 amended: when SubmitBlock is called with a non-nil layer2 state
and the block's height equals currentHeight + 1, the layer2 state's
height, version and multisignature (against the block header's
bookkeepers with threshold n - (n-1)/3) are validated before any
mutation: if any of the three checks fails, SubmitBlock returns an
error, performs no store operation and leaves the state unchanged.
(When the block's height is at or below currentHeight, SubmitBlock
returns nil without examining the layer2 state; no store is touched
either way.) -/
theorem SubmitBlock_layer2_validated (env : LedgerEnv)
    (st : LedgerState) (block : Block) (l2s : Layer2State)
    (hcl : st.closing = false)
    (hh : block.header.height = st.curr.height + 1)
    (hbad : l2s.height ≠ st.curr.height + 1 ∨
      l2s.version ≠ env.currLayer2Version ∨
      env.crypto.verifyMultiSignature (env.crypto.layer2StateHash l2s)
        block.header.bookkeepers (quorum block.header.bookkeepers.length)
        l2s.sigData = false) :
    (SubmitBlockM env st block (some l2s)).err ≠ none ∧
    (SubmitBlockM env st block (some l2s)).st = st ∧
    (SubmitBlockM env st block (some l2s)).trace = [] := by
  unfold SubmitBlockM
  rw [if_neg (by simp [hcl]), if_neg (by omega), if_neg (by omega)]
  cases hv : verifyHeader env.crypto env.getHeader block.header with
  | error e => exact ⟨by simp, rfl, rfl⟩
  | ok u =>
    dsimp only []
    by_cases hl2h : l2s.height ≠ st.curr.height + 1
    · rw [if_pos hl2h]
      exact ⟨by simp, rfl, rfl⟩
    · rw [if_neg hl2h]
      by_cases hver : l2s.version ≠ env.currLayer2Version
      · rw [if_pos hver]
        exact ⟨by simp, rfl, rfl⟩
      · rw [if_neg hver]
        push_neg at hl2h hver
        have hsig : env.crypto.verifyMultiSignature
            (env.crypto.layer2StateHash l2s) block.header.bookkeepers
            (quorum block.header.bookkeepers.length) l2s.sigData = false := by
          rcases hbad with h | h | h
          · exact absurd hl2h h
          · exact absurd hver h
          · exact h
        have hvl : verifyLayer2State env.crypto l2s
            block.header.bookkeepers =
            .error "VerifyMultiSignature of layer2 state" := by
          unfold verifyLayer2State
          rw [if_neg (by simp [hsig])]
        rw [hvl]
        exact ⟨by simp, rfl, rfl⟩

/-- Witness for C6: the amended theorem applied to the concrete
height-6 block and the layer2 state of height 99: SubmitBlock errors
without touching any store. -/
theorem SubmitBlock_layer2_validated_witness :
    (SubmitBlockM ledgerEnvW ledgerW blockW (some layer2BadW)).err ≠ none ∧
    (SubmitBlockM ledgerEnvW ledgerW blockW (some layer2BadW)).st =
      ledgerW :=
  ⟨(SubmitBlock_layer2_validated ledgerEnvW ledgerW blockW layer2BadW rfl
      rfl (.inl (by decide))).1,
    (SubmitBlock_layer2_validated ledgerEnvW ledgerW blockW layer2BadW rfl
      rfl (.inl (by decide))).2.1⟩

/-- Environment of recoverStore: the block store's current height
(loaded by loadCurrentBlock), the state store's committed height
(stateStore.GetCurrentBlock), the block store lookups, the execution
environment, and fault flags for the per-iteration persistence
calls. -/
structure RecoverEnv where
  blockHeight : Nat
  stateHeight : Nat
  getBlockHash : Nat → Except String Hash
  getBlock : Hash → Except String Block
  exec : ExecEnv
  saveStateErr : Bool
  commitEventErr : Bool
  commitStateErr : Bool

/-- Durable outcome of recovery: the state and event stores' current
markers and the list of block heights whose blocks were re-read and
re-executed.  (On the error path recovery aborts and the partially
advanced markers are not tracked.) -/
structure RecoverRes where
  stateMarker : Marker
  eventMarker : Marker
  replayed : List Nat
deriving Repr, DecidableEq

/-- One iteration of the recoverStore loop at loop index i, from the
source: read the block hash at height i, read that block, open the
event- and state-store batches, re-run executeBlock, re-run
saveBlockToStateStore and saveBlockToEventStore (staging each store's
current marker as the block's own height and hash), then commit the
event store and the state store. -/
def recoverStep (env : RecoverEnv) (acc : RecoverRes) (i : Nat) :
    Except String RecoverRes :=
  match env.getBlockHash i with
  | .error _ => .error "blockStore.GetBlockHash error"
  | .ok blockHash =>
    match env.getBlock blockHash with
    | .error _ => .error "blockStore.GetBlock error"
    | .ok block =>
      match executeBlock env.exec block with
      | .error e => .error e
      | .ok _result =>
        if env.saveStateErr then .error "save to state store error"
        else if env.commitEventErr then .error "eventStore.CommitTo error"
        else if env.commitStateErr then .error "stateStore.CommitTo error"
        else .ok { stateMarker := ⟨block.header.height, block.hashVal⟩,
                   eventMarker := ⟨block.header.height, block.hashVal⟩,
                   replayed := acc.replayed ++ [i] }

/-- recoverStore from the source: the loop
`for i := stateHeight; i < blockHeight; i++` — the loop indices are
exactly stateHeight, stateHeight+1, …, blockHeight-1, and each
iteration replays the block fetched at height i (GetBlockHash(i)),
never touching the block store's own data. -/
def recoverStore (env : RecoverEnv) (init : RecoverRes) :
    Except String RecoverRes :=
  (List.range' env.stateHeight (env.blockHeight - env.stateHeight)).foldlM
    (recoverStep env) init

/-- The block stored at height h in the concrete recovery scenario:
its hash is 1000 + h. -/
def recHeaderW (h : Nat) : Header :=
  { height := h, prevBlockHash := 0, timestamp := h, bookkeepers := [],
    nextBookkeeper := 0, blockRoot := 0, transactionsRoot := 0,
    sigData := [] }

/-- The concrete per-height block of the recovery scenario. -/
def recBlockW (h : Nat) : Block :=
  { header := recHeaderW h, transactions := [], hashVal := 1000 + h }

/-- The concrete crash scenario of the claim: block store committed
through height 7, state store only through height 5, fault-free
stores. -/
def recEnvW : RecoverEnv :=
  { blockHeight := 7, stateHeight := 5,
    getBlockHash := fun i => .ok (1000 + i),
    getBlock := fun blockHash => .ok (recBlockW (blockHash - 1000)),
    exec := execEnvW, saveStateErr := false, commitEventErr := false,
    commitStateErr := false }

/-- The state- and event-store markers before recovery: height 5. -/
def recInitW : RecoverRes :=
  { stateMarker := ⟨5, 1005⟩, eventMarker := ⟨5, 1005⟩, replayed := [] }

/-- C2 fails on the code: with the block store at height 7 and the
state store at height 5, recoverStore replays heights 5 and 6 — the
loop runs i = stateHeight .. blockHeight-1 and fetches the block at
height i — and leaves the state store at height 6, not heights 6 and 7
leaving the state store at height 7 as the spec requires; the state
store never reaches the block store's height. -/
theorem recoverStore_replays_wrong_gap :
    recoverStore recEnvW recInitW =
      .ok ⟨⟨6, 1006⟩, ⟨6, 1006⟩, [5, 6]⟩ ∧
    (recoverStore recEnvW recInitW).toOption.map RecoverRes.replayed ≠
      some [6, 7] ∧
    (recoverStore recEnvW recInitW).toOption.map
      (fun r => r.stateMarker.height) ≠ some 7 := by
  refine ⟨by rfl, by decide, by decide⟩

/-- keypair.SortPublicKeys, modelling the external sorting of the
bookkeeper public keys. -/
def sortKeys (ks : List PubKey) : List PubKey :=
  List.insertionSort (· ≤ ·) ks

/-- Observable operations of InitLedgerStoreWithGenesisBlock: the
three ClearAll calls, SaveBookkeeperState with the written record,
the genesis executeBlock, the inner submitBlock operations, and
SaveVersion (initGenesisBlock). -/
inductive InitEv where
  | clearBlock
  | clearState
  | clearEvent
  | saveBookkeeper (curr next : List PubKey)
  | execGenesis
  | sub (e : Ev)
  | saveVersion
deriving Repr, DecidableEq

/-- State touched by initialization: whether the durable version
marker equals SYSTEM_VERSION, the persisted bookkeeper-state record
(current and next sets), and the ledger state. -/
structure InitState where
  versionSet : Bool
  bookkeeper : Option (List PubKey × List PubKey)
  ledger : LedgerState
deriving Repr, DecidableEq

/-- Fault flags of the external calls made by initialization, plus
whether the block store contains the genesis block (checked on the
version-marker-present path). -/
structure InitEnv where
  getVersionErr : Bool
  containGenesis : Bool
  clearBlockErr : Bool
  clearStateErr : Bool
  clearEventErr : Bool
  saveBookkeeperErr : Bool
  exec : ExecEnv
  faults : Faults
  saveVersionErr : Bool

/-- Result of initialization: final state, operation trace, error. -/
structure InitRes where
  st : InitState
  trace : List InitEv
  err : Option String
deriving Repr, DecidableEq

/-- The trace of a fully successful inner submitBlock run. -/
def fullSubmitTrace (m : Marker) : List Ev :=
  [Ev.newBatch .blockS, Ev.newBatch .stateS, Ev.newBatch .eventS,
   Ev.stageBlock, Ev.stageLayer2, Ev.stageState, Ev.stageEvent,
   Ev.commit .blockS, Ev.commit .eventS, Ev.commit .stateS,
   Ev.setCurrent m]

/-- InitLedgerStoreWithGenesisBlock from the source.  When the version
marker is absent: clear the block, state and event stores; write the
bookkeeper-state record with current and next both the sorted input
set; execute the genesis block; commit it through the inner
submitBlock; then save the version marker (initGenesisBlock).  Each
failing step returns a wrapped error.  When the marker is present, the
genesis block must already be in the block store, after which init()
loads the current block and header index and runs recoverStore
(modelled by recoverStore above). -/
def InitLedgerStoreWithGenesisBlock (env : InitEnv) (st : InitState)
    (genesisBlock : Block) (defaultBookkeeper : List PubKey) : InitRes :=
  if env.getVersionErr then ⟨st, [], some "hasAlreadyInit error"⟩
  else if st.versionSet then
    if env.containGenesis then ⟨st, [], none⟩
    else ⟨st, [], some "GenesisBlock arenot init correctly"⟩
  else if env.clearBlockErr then
    ⟨st, [], some "blockStore.ClearAll error"⟩
  else if env.clearStateErr then
    ⟨st, [.clearBlock], some "stateStore.ClearAll error"⟩
  else if env.clearEventErr then
    ⟨st, [.clearBlock, .clearState], some "eventStore.ClearAll error"⟩
  else
    let sorted := sortKeys defaultBookkeeper
    if env.saveBookkeeperErr then
      ⟨st, [.clearBlock, .clearState, .clearEvent],
        some "SaveBookkeeperState error"⟩
    else
      let st1 := { st with bookkeeper := some (sorted, sorted) }
      let tr1 := [InitEv.clearBlock, InitEv.clearState, InitEv.clearEvent,
        InitEv.saveBookkeeper sorted sorted]
      match executeBlock env.exec genesisBlock with
      | .error e => ⟨st1, tr1, some e⟩
      | .ok _result =>
        let sub := submitBlock st1.ledger genesisBlock env.faults
        let st2 := { st1 with ledger := sub.st }
        let tr2 := tr1 ++ [InitEv.execGenesis] ++ sub.trace.map InitEv.sub
        match sub.err with
        | some e => ⟨st2, tr2, some ("save genesis block error " ++ e)⟩
        | none =>
          if env.saveVersionErr then ⟨st2, tr2, some "init error"⟩
          else ⟨{ st2 with versionSet := true },
            tr2 ++ [InitEv.saveVersion], none⟩

/-- Helper: a submitBlock run that returns a nil error performed the
full trace and advanced the in-memory pointer to the block. -/
theorem submitBlock_ok_shape (st : LedgerState) (block : Block)
    (f : Faults) (h : (submitBlock st block f).err = none) :
    (submitBlock st block f).trace =
      fullSubmitTrace ⟨block.header.height, block.hashVal⟩ ∧
    (submitBlock st block f).st.curr =
      ⟨block.header.height, block.hashVal⟩ := by
  by_cases h0 : block.header.height ≠ 0 ∧
      f.computedBlockRoot ≠ block.header.blockRoot <;>
    cases hsb : f.saveBlockErr <;> cases hsl : f.saveLayer2Err <;>
    cases hss : f.saveStateErr <;> cases hcb : f.commitBlockErr <;>
    cases hce : f.commitEventErr <;> cases hcs : f.commitStateErr <;>
    simp [submitBlock, fullSubmitTrace, h0, hsb, hsl, hss, hcb, hce,
      hcs] at h ⊢

/-- C10: starting without a version marker (and a healthy version
query), initialization sets the version marker exactly when it
returns a nil error — no failure leaves a (partial) version marker
behind — and on success it has cleared the three sub-stores, written
the bookkeeper record with current = next = sorted input set, executed
the genesis block, committed it through the full submit protocol (all
three commits), and persisted the version marker last, leaving the
in-memory pointer at the genesis block. -/
theorem init_version_marker_last (env : InitEnv) (st : InitState)
    (genesisBlock : Block) (bks : List PubKey)
    (h0 : st.versionSet = false) (hg : env.getVersionErr = false) :
    ((InitLedgerStoreWithGenesisBlock env st genesisBlock bks).st.versionSet
        = true ↔
      (InitLedgerStoreWithGenesisBlock env st genesisBlock bks).err = none) ∧
    ((InitLedgerStoreWithGenesisBlock env st genesisBlock bks).err = none →
      (InitLedgerStoreWithGenesisBlock env st genesisBlock bks).st.bookkeeper
          = some (sortKeys bks, sortKeys bks) ∧
      (InitLedgerStoreWithGenesisBlock env st genesisBlock bks).st.ledger.curr
          = ⟨genesisBlock.header.height, genesisBlock.hashVal⟩ ∧
      (InitLedgerStoreWithGenesisBlock env st genesisBlock bks).trace =
        [InitEv.clearBlock, InitEv.clearState, InitEv.clearEvent,
         InitEv.saveBookkeeper (sortKeys bks) (sortKeys bks),
         InitEv.execGenesis] ++
        (fullSubmitTrace ⟨genesisBlock.header.height,
          genesisBlock.hashVal⟩).map InitEv.sub ++
        [InitEv.saveVersion]) := by
  unfold InitLedgerStoreWithGenesisBlock
  rw [if_neg (by simp [hg]), if_neg (by simp [h0])]
  by_cases hcb : env.clearBlockErr = true
  · rw [if_pos hcb]
    exact ⟨by simp [h0], by simp⟩
  · rw [if_neg hcb]
    by_cases hcs : env.clearStateErr = true
    · rw [if_pos hcs]
      exact ⟨by simp [h0], by simp⟩
    · rw [if_neg hcs]
      by_cases hcev : env.clearEventErr = true
      · rw [if_pos hcev]
        exact ⟨by simp [h0], by simp⟩
      · rw [if_neg hcev]
        by_cases hbk : env.saveBookkeeperErr = true
        · rw [if_pos hbk]
          exact ⟨by simp [h0], by simp⟩
        · rw [if_neg hbk]
          cases hx : executeBlock env.exec genesisBlock with
          | error e =>
            dsimp only []
            exact ⟨by simp [h0], by simp⟩
          | ok result =>
            dsimp only []
            cases hs : (submitBlock
                { st with bookkeeper := some (sortKeys bks, sortKeys bks)
                  : InitState }.ledger genesisBlock env.faults).err with
            | some e =>
              simp only [hs]
              exact ⟨by simp [h0], by simp⟩
            | none =>
              simp only [hs]
              by_cases hv : env.saveVersionErr = true
              · rw [if_pos hv]
                exact ⟨by simp [h0], by simp⟩
              · rw [if_neg hv]
                have hshape := submitBlock_ok_shape _ genesisBlock
                  env.faults hs
                refine ⟨by simp, fun _ => ⟨by simp, ?_, ?_⟩⟩
                · simpa using hshape.2
                · simp only [List.append_assoc]
                  simpa [List.append_assoc] using
                    congrArg (fun t => [InitEv.clearBlock,
                      InitEv.clearState, InitEv.clearEvent,
                      InitEv.saveBookkeeper (sortKeys bks) (sortKeys bks),
                      InitEv.execGenesis] ++ t.map InitEv.sub ++
                      [InitEv.saveVersion]) hshape.1

/-- The empty initial ledger state used by the C10 witness. -/
def ledgerInitW : LedgerState :=
  { curr := ⟨0, 0⟩, headerIndex := [], blockMarker := ⟨0, 0⟩,
    eventMarker := ⟨0, 0⟩, stateMarker := ⟨0, 0⟩, closing := false }

/-- The fresh (no version marker) store state for the C10 witness. -/
def initStW : InitState :=
  { versionSet := false, bookkeeper := none, ledger := ledgerInitW }

/-- The fault-free initialization environment for the C10 witness. -/
def initEnvW : InitEnv :=
  { getVersionErr := false, containGenesis := false,
    clearBlockErr := false, clearStateErr := false,
    clearEventErr := false, saveBookkeeperErr := false,
    exec := execEnvW, faults := faultsW, saveVersionErr := false }

/-- The genesis header of the C10 witness. -/
def genesisWHeader : Header :=
  { height := 0, prevBlockHash := 0, timestamp := 0,
    bookkeepers := [], nextBookkeeper := 0, blockRoot := 0,
    transactionsRoot := 0, sigData := [] }

/-- The genesis block of the C10 witness (hash 5). -/
def genesisW : Block :=
  { header := genesisWHeader, transactions := [], hashVal := 5 }

/-- The unsorted input bookkeeper set of the C10 witness. -/
def bksW : List PubKey := [3, 1, 2]

/-- Witness for C10: a fault-free initialization run sets the version
marker, writes the sorted bookkeeper record ([1,2,3] twice), and ends
with the pointer at the genesis block. -/
theorem init_version_marker_last_witness :
    (InitLedgerStoreWithGenesisBlock initEnvW initStW genesisW bksW).err
        = none ∧
    (InitLedgerStoreWithGenesisBlock initEnvW initStW genesisW
      bksW).st.versionSet = true ∧
    (InitLedgerStoreWithGenesisBlock initEnvW initStW genesisW
      bksW).st.bookkeeper = some ([1, 2, 3], [1, 2, 3]) := by
  have herr : (InitLedgerStoreWithGenesisBlock initEnvW initStW genesisW
      bksW).err = none := by decide
  refine ⟨herr,
    ((init_version_marker_last initEnvW initStW genesisW bksW rfl
      rfl).1).mpr herr, ?_⟩
  rw [((init_version_marker_last initEnvW initStW genesisW bksW rfl
    rfl).2 herr).1]
  decide

end Layer2
